import Mathlib

/-!
Shallow embedding of the BatchGpt request-orchestration core
(`src/lib/BatchGpt.js`): the per-attempt response validation checks,
the retry loop of `request`, the moderation gate, and the
bounded-concurrency dispatch used by `parallel`.

The file `src/lib/BatchGpt.js` contains two snapshots of the class,
separated by a document marker.  The first snapshot (lines 98-473) is
the primary implementation; its retry loop initializes
`retryAttempt = -1` and increments at the top of each iteration, so the
0-based index of the running attempt equals `retryAttempt` inside the
loop body.  The second snapshot (lines 566-1019) initializes
`retryAttempt = 0` and also increments at the top, so inside the body
`retryAttempt` is one more than the 0-based attempt index.  Both loop
shapes are embedded below (`delayEventsFirst` / `delayEventsSecond`).
-/

namespace BatchGpt

/-- A conversational turn sent to the model, `{role, content}`. -/
structure Message where
  role : String
  content : String
deriving Repr, DecidableEq

/-- JS truthiness of a numeric-or-null option field: `null` and `0` are
falsy, every other number is truthy. -/
def jsTruthy : Option Int → Bool
  | none => false
  | some v => v != 0

/-- The `retryDelay` option: a fixed number of milliseconds or a function
of the attempt counter (`typeof retryDelay !== "function"` distinguishes
the two in the source). -/
inductive RetryDelay where
  | fixed : Int → RetryDelay
  | fn : (Nat → Int) → RetryDelay

/-- Resolved per-request options, mirroring the fields destructured at the
top of `request` (first snapshot, lines 180-190).  `model`, `timeout` and
the logger are irrelevant to the orchestration logic and omitted. -/
structure Options where
  minTokens : Option Int := none
  minResponseTime : Option Int := none
  retryCount : Nat := 0
  retryDelay : RetryDelay := .fixed 0
  validateJson : Bool := false
  imageModel : Option String := none

/-- Behaviour of the transport on one attempt.  `rejects = some msg`
models the awaited call rejecting with that message; `timesOut` models
the p-queue per-attempt timeout leaving `response === undefined`;
`jsonValid` is the value of `utils.isJson` on the response content;
`elapsedMs` is `end - start`; `completionTokens` is
`response.usage.completion_tokens` (`none` when the field is absent). -/
structure AttemptOutcome where
  rejects : Option String := none
  timesOut : Bool := false
  jsonValid : Bool := true
  elapsedMs : Int := 0
  completionTokens : Option Int := none

/-- Embeds `getToken`: reads `usage.completion_tokens`, returning `0`
when the access throws (field absent). -/
def getToken (completionTokens : Option Int) : Int :=
  completionTokens.getD 0

/-- Embeds the guard shape `floor && value <= floor` used by both the
`minResponseTime` check and the `minTokens` check (first snapshot, lines
314 and 323): the check fires only when the floor is truthy (set and
nonzero) and the value is less than or equal to it. -/
def floorViolated (floor : Option Int) (value : Int) : Bool :=
  jsTruthy floor && decide (value ≤ floor.getD 0)

/-- Error message of the `minResponseTime` check (line 315). -/
def responseTimeMessage (rt mrt : Int) : String :=
  s!"Response is unreliable. Response Time {rt} < minResponseTime {mrt}"

/-- Error message of the `minTokens` check (line 324); the source
template ends with a stray closing brace. -/
def tokensMessage (tk mt : Int) : String :=
  s!"Response is unreliable. Tokens received {tk} < minTokens {mt}\x7d"

/-- Embeds the body of the `try` block of one attempt (first snapshot,
lines 293-327): a rejection of the awaited call surfaces as-is, then the
timeout sentinel, the JSON well-formedness check (skipped for image
requests), the latency floor, and the token floor are tested in source
order; the first violated check yields its error message.  Returns
`none` when the attempt succeeds. -/
def attemptError (opts : Options) (a : AttemptOutcome) : Option String :=
  match a.rejects with
  | some msg => some msg
  | none =>
    if a.timesOut then some "Request timed out"
    else if opts.imageModel = none ∧ opts.validateJson = true ∧ a.jsonValid = false then
      some "Invalid JSON response"
    else if floorViolated opts.minResponseTime a.elapsedMs then
      some (responseTimeMessage a.elapsedMs (opts.minResponseTime.getD 0))
    else if floorViolated opts.minTokens (getToken a.completionTokens) then
      some (tokensMessage (getToken a.completionTokens) (opts.minTokens.getD 0))
    else none

/-- One element of `responseHistory`.  `error` is `null` exactly on the
success record.  The fields `delayAwait` and `delayArg` instrument the
`catch` block: `delayAwait` is the value passed to `await utils.delay`
after this attempt when that await executes (and `none` when it does
not), and `delayArg` is the argument passed to a function-valued
`retryDelay` after this attempt, when it is invoked.  The `moderation`
echo field and logging are omitted. -/
structure AttemptRecord where
  error : Option String
  tokens : Option Int
  responseTime : Int
  delayAwait : Option Int
  delayArg : Option Nat

/-- Result of the retry loop: the final `error` variable and the full
`responseHistory`. -/
structure LoopResult where
  error : Option String
  history : List AttemptRecord

/-- Embeds the end of the `catch` block of the first snapshot (lines
364-378) for the attempt with 0-based index `i` (there `retryAttempt = i`,
since `retryAttempt` starts at `-1` and is incremented at the top of the
loop).  A fixed delay is awaited only when it is positive and attempts
remain; a function delay is invoked with `retryAttempt` and its result
is awaited whenever attempts remain.  Returns the awaited delay value
and the argument given to the function, when those events happen. -/
def delayEventsFirst (opts : Options) (i : Nat) : Option Int × Option Nat :=
  match opts.retryDelay with
  | .fixed d => (if 0 < d ∧ i < opts.retryCount then some d else none, none)
  | .fn f =>
    (if i < opts.retryCount then some (f i) else none,
     if i < opts.retryCount then some i else none)

/-- Embeds the end of the `catch` block of the second snapshot (lines
831-845) for the attempt with 0-based index `i`.  In that snapshot
`retryAttempt` starts at `0` and is incremented at the top of the loop,
so inside the `catch` block `retryAttempt = i + 1`. -/
def delayEventsSecond (opts : Options) (i : Nat) : Option Int × Option Nat :=
  match opts.retryDelay with
  | .fixed d => (if 0 < d ∧ i + 1 < opts.retryCount then some d else none, none)
  | .fn f =>
    (if i + 1 < opts.retryCount then some (f (i + 1)) else none,
     if i + 1 < opts.retryCount then some (i + 1) else none)

/-- Embeds the retry loop of `request` from the attempt with 0-based
index `i` on, with `rem` loop iterations left to run.  Both snapshots
run the body exactly `retryCount + 1` times unless an attempt succeeds
first (first snapshot: `retryAttempt` from `-1`, `while (retryAttempt <
retryCount)` with an increment at the top; second snapshot:
`retryAttempt` from `0`, `while (retryAttempt <= retryCount)` with the
same increment), so the two differ only in the `delayEvents` bookkeeping
of the `catch` block.  A successful attempt appends its record and
breaks; a failed attempt appends its record, performs the delay events,
and continues.  The final `error` is the error of the last attempt made
(or `none` on success). -/
def runAttempts (opts : Options) (tr : Nat → AttemptOutcome)
    (delayEvents : Nat → Option Int × Option Nat) : Nat → Nat → LoopResult
  | 0, _ => { error := none, history := [] }
  | rem + 1, i =>
    let a := tr i
    match attemptError opts a with
    | none =>
      { error := none,
        history := [{ error := none, tokens := some (getToken a.completionTokens),
                      responseTime := a.elapsedMs, delayAwait := none, delayArg := none }] }
    | some e =>
      let ev := delayEvents i
      let r : AttemptRecord :=
        { error := some e, tokens := none, responseTime := a.elapsedMs,
          delayAwait := ev.1, delayArg := ev.2 }
      let tail := runAttempts opts tr delayEvents rem (i + 1)
      { error := if rem = 0 then some e else tail.error,
        history := r :: tail.history }

/-- The retry loop of the first snapshot of `request` (lines 263-380). -/
def runLoopFirst (opts : Options) (tr : Nat → AttemptOutcome) : LoopResult :=
  runAttempts opts tr (delayEventsFirst opts) (opts.retryCount + 1) 0

/-- The retry loop of the second snapshot of `request` (lines 726-846). -/
def runLoopSecond (opts : Options) (tr : Nat → AttemptOutcome) : LoopResult :=
  runAttempts opts tr (delayEventsSecond opts) (opts.retryCount + 1) 0

/-- Number of times `await utils.delay` ran during a history. -/
def awaitCount (l : List AttemptRecord) : Nat :=
  (l.filter fun r => r.delayAwait.isSome).length

/-- The arguments passed to a function-valued `retryDelay`, in order. -/
def delayArgsOf (l : List AttemptRecord) : List Nat :=
  l.filterMap fun r => r.delayArg

/-- Instance-level configuration relevant to the moderation gate. -/
structure Config where
  moderation : Bool := false
  moderationThreshold : Rat := 1 / 2

/-- The raw result of the remote moderation call:
`moderation.results[0]`, with `categories` and `category_scores` fused
into one association list over the shared category names. -/
structure ModerationApiResult where
  flagged : Bool
  categoryScores : List (String × Rat)

/-- The `safeInput` object built by `moderationApi` (first snapshot,
lines 151-167): the API's `flagged` boolean plus the category names
whose score is at least `moderationThreshold`. -/
structure SafeInput where
  flagged : Bool
  categories : List String

/-- Embeds `moderationApi`: filters the category names by
`Number(category_scores[category]) >= this.moderationThreshold`. -/
def moderationApi (threshold : Rat) (m : ModerationApiResult) : SafeInput :=
  { flagged := m.flagged,
    categories := (m.categoryScores.filter fun p => threshold ≤ p.2).map fun p => p.1 }

/-- The moderation veto message (first snapshot, lines 249-251). -/
def moderationMessage (categories : List String) : String :=
  "Prompt was flagged for " ++ String.intercalate ", " categories

/-- The value of `request`: the `[error, gptResponse, responseHistory]`
triple, instrumented with the number of moderation-API calls and of
transport attempts made. -/
structure RequestResult where
  error : Option String
  finalResponse : Option AttemptRecord
  history : Option (List AttemptRecord)
  moderationCalls : Nat
  transportAttempts : Nat

/-- Embeds `request` of the first snapshot (lines 178-387), after the
`messages`/`prompt` resolution: the moderation API is called only when
`messages.length === 1` and instance moderation is on; if the resulting
`safeInput` is flagged or has a nonempty category list, `request`
returns `[moderationError, null, null]` without entering the retry
loop.  Otherwise the retry loop runs and `gptResponse` is the last
record pushed to `responseHistory`. -/
def request (cfg : Config) (opts : Options) (messages : List Message)
    (moderationResp : ModerationApiResult) (tr : Nat → AttemptOutcome) : RequestResult :=
  let runFrom : Nat → RequestResult := fun moderationCalls =>
    let lr := runLoopFirst opts tr
    { error := lr.error, finalResponse := lr.history.getLast?,
      history := some lr.history, moderationCalls := moderationCalls,
      transportAttempts := lr.history.length }
  if messages.length = 1 ∧ cfg.moderation = true then
    let safeInput := moderationApi cfg.moderationThreshold moderationResp
    if safeInput.flagged = true ∨ 0 < safeInput.categories.length then
      { error := some (moderationMessage safeInput.categories),
        finalResponse := none, history := none,
        moderationCalls := 1, transportAttempts := 0 }
    else runFrom 1
  else runFrom 0

/-- One element of the `messageList` given to `parallel`: a bare prompt
string, or an object `{content, requestOptions}`. -/
inductive ParallelMessage where
  | str : String → ParallelMessage
  | obj : String → Options → ParallelMessage

/-- The message list `getMessages` builds for an item (first snapshot,
lines 420-434): a single user turn holding the prompt text. -/
def itemMessages : ParallelMessage → List Message
  | .str s => [{ role := "user", content := s }]
  | .obj c _ => [{ role := "user", content := c }]

/-- The `requestOptions` object `getMessages` extracts from an item:
`{}` for a string item, `message.requestOptions` for an object item. -/
def itemOptionsObject : ParallelMessage → Options
  | .str _ => {}
  | .obj _ o => o

/-- Embeds the guard `options.length > 0` of the first snapshot's
`parallel` (line 444).  `options` there is a plain options object, never
an array, so `options.length` evaluates to `undefined`, and in
JavaScript `undefined > 0` is `false` — for every per-item options
object this guard is `false`. -/
def optionsLengthGtZero (_ : Options) : Bool :=
  false

/-- Embeds the request object built for one item of `parallel` (first
snapshot, lines 442-445): `{messages, ...(options.length > 0 ? options :
requestOptions)}`, i.e. the per-item options when the guard holds and
the batch-level `requestOptions` otherwise. -/
def itemEffectiveOptions (batch : Options) (m : ParallelMessage) : Options :=
  if optionsLengthGtZero (itemOptionsObject m) then itemOptionsObject m else batch

/-- The orchestration result of the `i`-th item of a `parallel` batch:
`request` run on the item's messages with its effective options.  `mrs`
and `trs` give each item its own moderation response and transport
behaviour. -/
def parallelItemResult (cfg : Config) (batch : Options) (items : List ParallelMessage)
    (mrs : Nat → ModerationApiResult) (trs : Nat → Nat → AttemptOutcome) (i : Nat) :
    RequestResult :=
  request cfg (itemEffectiveOptions batch (items.getD i (.str "")))
    (itemMessages (items.getD i (.str ""))) (mrs i) (trs i)

/-- Modelled from the spec: the state of the bounded-concurrency queue
`parallel` dispatches through (the `p-queue` dependency, instantiated
with `{concurrency}` on lines 455-457 of the first snapshot, is not part
of this repository; the spec describes the dispatcher as admitting
items in submission order with at most `concurrency` running at once and
recording each result as its item finishes).  Tasks are the item
indices; `pending` is the admission queue in submission order, `running`
the admitted, unfinished tasks, and `done` the finished tasks paired
with their results, in completion order. -/
structure QueueState (R : Type) where
  pending : List Nat
  running : List Nat
  done : List (Nat × R)

/-- Modelled from the spec: one scheduler transition of the dispatcher
queue with concurrency limit `c` running the task bodies `f`.  A task is
started only when the head of the admission queue can run without
exceeding `c`; any running task may finish at any time, recording its
own result. -/
inductive QueueStep (c : Nat) {R : Type} (f : Nat → R) :
    QueueState R → QueueState R → Prop where
  | start (s : QueueState R) (i : Nat) (rest : List Nat)
      (hp : s.pending = i :: rest) (hc : s.running.length < c) :
      QueueStep c f s { pending := rest, running := s.running ++ [i], done := s.done }
  | finish (s : QueueState R) (i : Nat) (hi : i ∈ s.running) :
      QueueStep c f s
        { pending := s.pending, running := s.running.erase i, done := s.done ++ [(i, f i)] }

/-- A queue state reachable from the initial state in which the `n`
items of the batch are pending in submission order and nothing has
started. -/
def QueueReachable (c : Nat) {R : Type} (f : Nat → R) (n : Nat) (s : QueueState R) : Prop :=
  Relation.ReflTransGen (QueueStep c f)
    { pending := List.range n, running := [], done := [] } s

/-- When every attempt fails, the loop runs all `rem` remaining
iterations, appending one failure record per iteration. -/
theorem runAttempts_allFail (opts : Options) (tr : Nat → AttemptOutcome)
    (de : Nat → Option Int × Option Nat)
    (hf : ∀ i, (attemptError opts (tr i)).isSome = true) :
    ∀ rem i, (runAttempts opts tr de rem i).history.length = rem ∧
      ∀ r ∈ (runAttempts opts tr de rem i).history, r.error.isSome = true := by
  intro rem
  induction rem with
  | zero => intro i; simp [runAttempts]
  | succ rem ih =>
    intro i
    obtain ⟨e, he⟩ := Option.isSome_iff_exists.mp (hf i)
    simp only [runAttempts, he]
    refine ⟨by simp [(ih (i + 1)).1], ?_⟩
    intro r hr
    rcases List.mem_cons.mp hr with h | h
    · simp [h]
    · exact (ih (i + 1)).2 r h

/-- C1: against a transport whose every call fails, `request` with
`retryCount = n` returns a history of exactly `n + 1` attempt records,
all failures; with `retryCount = 0` the history has one element. -/
theorem request_allFail_history (cfg : Config) (opts : Options) (messages : List Message)
    (mr : ModerationApiResult) (tr : Nat → AttemptOutcome)
    (hmod : cfg.moderation = false)
    (hfail : ∀ i, (attemptError opts (tr i)).isSome = true) :
    ∃ l, (request cfg opts messages mr tr).history = some l ∧
      l.length = opts.retryCount + 1 ∧ ∀ r ∈ l, r.error.isSome = true := by
  have hcond : ¬(messages.length = 1 ∧ cfg.moderation = true) := by
    rintro ⟨-, h⟩
    rw [hmod] at h
    exact Bool.false_ne_true h
  have hmain := runAttempts_allFail opts tr (delayEventsFirst opts) hfail
    (opts.retryCount + 1) 0
  refine ⟨(runLoopFirst opts tr).history, ?_, hmain.1, hmain.2⟩
  simp [request, hcond]

/-- Witness for C1 at `retryCount = 0` and an always-rejecting
transport: the history has exactly one element, a failure. -/
theorem request_allFail_history_witness :
    ∃ l, (request {} {} [{ role := "user", content := "hi" }]
        { flagged := false, categoryScores := [] }
        (fun _ => { rejects := some "boom" })).history = some l ∧
      l.length = 0 + 1 ∧ ∀ r ∈ l, r.error.isSome = true :=
  request_allFail_history {} {} [{ role := "user", content := "hi" }]
    { flagged := false, categoryScores := [] }
    (fun _ => { rejects := some "boom" }) rfl (fun _ => rfl)

/-- C2, counterexample: with the default numeric `retryDelay = 0` and
`retryCount = 1`, a permanently failing transport makes `k = 2`
attempts, yet `await utils.delay` never runs — the guard `retryDelay >
0` skips the await — so the delay is not awaited `k - 1 = 1` times as
claimed. -/
theorem runLoopFirst_zero_delay_never_awaited :
    (runLoopFirst { retryCount := 1 } fun _ => { rejects := some "boom" }).history.length = 2 ∧
    awaitCount
        (runLoopFirst { retryCount := 1 } fun _ => { rejects := some "boom" }).history ≠
      2 - 1 := by
  decide

/-- The retry delay configurations under which the first snapshot's
`catch` block always reaches an `await utils.delay` while attempts
remain: a function, or a positive fixed number. -/
def delayAlwaysRuns : RetryDelay → Prop
  | .fixed d => 0 < d
  | .fn _ => True

/-- The loop body always pushes at least one record. -/
theorem runAttempts_history_ne_nil (opts : Options) (tr : Nat → AttemptOutcome)
    (de : Nat → Option Int × Option Nat) (rem i : Nat) :
    (runAttempts opts tr de (rem + 1) i).history ≠ [] := by
  cases h : attemptError opts (tr i) <;> simp [runAttempts, h]

/-- While attempts remain, the first snapshot awaits the delay after a
failed attempt whenever `retryDelay` is a function or a positive fixed
number. -/
theorem delayEventsFirst_isSome (opts : Options) (hd : delayAlwaysRuns opts.retryDelay)
    (i : Nat) (hi : i < opts.retryCount) :
    (delayEventsFirst opts i).1.isSome = true := by
  cases hrd : opts.retryDelay with
  | fixed d =>
    rw [hrd] at hd
    simp only [delayAlwaysRuns] at hd
    simp [delayEventsFirst, hrd, hi, hd]
  | fn f => simp [delayEventsFirst, hrd, hi]

/-- After the final permitted attempt no delay is awaited. -/
theorem delayEventsFirst_exhausted (opts : Options) (i : Nat)
    (hi : ¬ i < opts.retryCount) : (delayEventsFirst opts i).1 = none := by
  cases hrd : opts.retryDelay <;> simp [delayEventsFirst, hrd, hi]

/-- One-step unfolding of the loop on a failed attempt. -/
theorem runAttempts_fail_step (opts : Options) (tr : Nat → AttemptOutcome)
    (de : Nat → Option Int × Option Nat) (rem i : Nat) (e : String)
    (h : attemptError opts (tr i) = some e) :
    runAttempts opts tr de (rem + 1) i =
      { error := if rem = 0 then some e else (runAttempts opts tr de rem (i + 1)).error,
        history :=
          { error := some e, tokens := none, responseTime := (tr i).elapsedMs,
            delayAwait := (de i).1, delayArg := (de i).2 } ::
          (runAttempts opts tr de rem (i + 1)).history } := by
  simp only [runAttempts, h]

/-- Delay bookkeeping of the first snapshot's loop, by induction on the
remaining iterations: every record but the last carries an awaited
delay, the last record carries none, and the total number of awaits is
one less than the number of records. -/
theorem runAttempts_first_delays (opts : Options) (tr : Nat → AttemptOutcome)
    (hd : delayAlwaysRuns opts.retryDelay) :
    ∀ rem i, i + rem = opts.retryCount →
      awaitCount (runAttempts opts tr (delayEventsFirst opts) (rem + 1) i).history =
        (runAttempts opts tr (delayEventsFirst opts) (rem + 1) i).history.length - 1 ∧
      (∀ r ∈ (runAttempts opts tr (delayEventsFirst opts) (rem + 1) i).history.dropLast,
        r.delayAwait.isSome = true) ∧
      ∀ r ∈ (runAttempts opts tr (delayEventsFirst opts) (rem + 1) i).history.getLast?,
        r.delayAwait = none := by
  intro rem
  induction rem with
  | zero =>
    intro i hi
    have hlast : (delayEventsFirst opts i).1 = none :=
      delayEventsFirst_exhausted opts i (by omega)
    cases h : attemptError opts (tr i) <;>
      simp [runAttempts, h, awaitCount, hlast]
  | succ rem ih =>
    intro i hi
    cases h : attemptError opts (tr i) with
    | none => simp [runAttempts, h, awaitCount]
    | some e =>
      have hsome : (delayEventsFirst opts i).1.isSome = true :=
        delayEventsFirst_isSome opts hd i (by omega)
      obtain ⟨ha, hmid, hlast⟩ := ih (i + 1) (by omega)
      have hne := runAttempts_history_ne_nil opts tr (delayEventsFirst opts) rem (i + 1)
      rw [runAttempts_fail_step opts tr (delayEventsFirst opts) (rem + 1) i e h]
      cases ht : (runAttempts opts tr (delayEventsFirst opts) (rem + 1) (i + 1)).history with
      | nil => exact absurd ht hne
      | cons b t2 =>
        rw [ht] at ha hmid hlast
        refine ⟨?_, ?_, ?_⟩
        · simp only [awaitCount, List.filter_cons, hsome] at ha ⊢
          simp at ha ⊢
          omega
        · intro r hr
          rcases List.mem_cons.mp hr with h1 | h1
          · subst h1; exact hsome
          · exact hmid r h1
        · intro r hr
          rw [List.getLast?_cons_cons] at hr
          exact hlast r hr

/-- C2 (amended): in the first snapshot's retry loop, when `retryDelay`
is a function or a positive fixed number, a run making `k` attempts
awaits the retry delay exactly `k - 1` times — once after every attempt
except the last — and never after the final attempt, whether that
attempt succeeded or exhausted the budget. -/
theorem runLoopFirst_delay_between_attempts (opts : Options) (tr : Nat → AttemptOutcome)
    (hd : delayAlwaysRuns opts.retryDelay) :
    awaitCount (runLoopFirst opts tr).history = (runLoopFirst opts tr).history.length - 1 ∧
    (∀ r ∈ (runLoopFirst opts tr).history.dropLast, r.delayAwait.isSome = true) ∧
    ∀ r ∈ (runLoopFirst opts tr).history.getLast?, r.delayAwait = none :=
  runAttempts_first_delays opts tr hd opts.retryCount 0 (by omega)

/-- Witness for the amended C2: `retryCount = 1`, fixed delay `7`, a
permanently failing transport — two attempts, one await, none after the
final attempt. -/
theorem runLoopFirst_delay_between_attempts_witness :
    awaitCount (runLoopFirst { retryCount := 1, retryDelay := .fixed 7 }
        fun _ => { rejects := some "boom" }).history =
      (runLoopFirst { retryCount := 1, retryDelay := .fixed 7 }
        fun _ => { rejects := some "boom" }).history.length - 1 ∧
    (∀ r ∈ (runLoopFirst { retryCount := 1, retryDelay := .fixed 7 }
        fun _ => { rejects := some "boom" }).history.dropLast,
      r.delayAwait.isSome = true) ∧
    ∀ r ∈ (runLoopFirst { retryCount := 1, retryDelay := .fixed 7 }
        fun _ => { rejects := some "boom" }).history.getLast?, r.delayAwait = none :=
  runLoopFirst_delay_between_attempts { retryCount := 1, retryDelay := .fixed 7 }
    (fun _ => { rejects := some "boom" }) (show (0 : Int) < 7 by norm_num)

/-- C3: evaluation at the failing input.  With `retryCount = 2`, a
function `retryDelay` and a permanently failing transport, the first
snapshot's loop invokes the function with the zero-based completed
attempt indices `0, 1`, as the claim states; the second snapshot's loop
invokes it exactly once, with argument `1` — its `retryAttempt` counter
is already incremented when the `catch` block reads it, so the
arguments are one-based and the delay before the final retry is
skipped. -/
theorem runLoopSecond_delayArgs_off_by_one :
    delayArgsOf (runLoopSecond { retryCount := 2, retryDelay := .fn fun n => (n : Int) * 100 }
        fun _ => { rejects := some "boom" }).history = [1] ∧
    delayArgsOf (runLoopFirst { retryCount := 2, retryDelay := .fn fun n => (n : Int) * 100 }
        fun _ => { rejects := some "boom" }).history = [0, 1] := by
  decide

/-- C4: when the message list is a single turn, moderation is enabled
and the moderation verdict is flagged, `request` returns the
category-naming message as `error`, a null final response, a null
history, and makes zero transport calls. -/
theorem request_moderation_veto (cfg : Config) (opts : Options) (messages : List Message)
    (mr : ModerationApiResult) (tr : Nat → AttemptOutcome)
    (hlen : messages.length = 1) (hmod : cfg.moderation = true)
    (hflag : (moderationApi cfg.moderationThreshold mr).flagged = true) :
    (request cfg opts messages mr tr).error =
      some (moderationMessage (moderationApi cfg.moderationThreshold mr).categories) ∧
    (request cfg opts messages mr tr).finalResponse = none ∧
    (request cfg opts messages mr tr).history = none ∧
    (request cfg opts messages mr tr).transportAttempts = 0 := by
  simp [request, hlen, hmod, hflag]

/-- Witness for C4 at a concrete flagged moderation result. -/
theorem request_moderation_veto_witness :
    (request { moderation := true, moderationThreshold := 1 } {}
        [{ role := "user", content := "hi" }]
        { flagged := true, categoryScores := [("hate", 2)] } fun _ => {}).error =
      some (moderationMessage (moderationApi 1
        { flagged := true, categoryScores := [("hate", 2)] }).categories) ∧
    (request { moderation := true, moderationThreshold := 1 } {}
        [{ role := "user", content := "hi" }]
        { flagged := true, categoryScores := [("hate", 2)] } fun _ => {}).finalResponse = none ∧
    (request { moderation := true, moderationThreshold := 1 } {}
        [{ role := "user", content := "hi" }]
        { flagged := true, categoryScores := [("hate", 2)] } fun _ => {}).history = none ∧
    (request { moderation := true, moderationThreshold := 1 } {}
        [{ role := "user", content := "hi" }]
        { flagged := true, categoryScores := [("hate", 2)] } fun _ => {}).transportAttempts = 0 :=
  request_moderation_veto { moderation := true, moderationThreshold := 1 } {}
    [{ role := "user", content := "hi" }]
    { flagged := true, categoryScores := [("hate", 2)] } (fun _ => {}) rfl rfl rfl

/-- C9: with two or more messages the moderation gate is skipped
entirely — no moderation call is made and the request cannot be vetoed
(the history is non-null) — even when moderation is enabled. -/
theorem request_multi_message_skips_moderation (cfg : Config) (opts : Options)
    (messages : List Message) (mr : ModerationApiResult) (tr : Nat → AttemptOutcome)
    (hlen : 2 ≤ messages.length) :
    (request cfg opts messages mr tr).moderationCalls = 0 ∧
    (request cfg opts messages mr tr).history.isSome = true := by
  have hcond : ¬(messages.length = 1 ∧ cfg.moderation = true) := by
    rintro ⟨h, -⟩
    omega
  simp [request, hcond]

/-- Witness for C9: two messages, moderation enabled, a flagged
moderation result — yet no moderation call and a non-null history. -/
theorem request_multi_message_skips_moderation_witness :
    (request { moderation := true, moderationThreshold := 1 } {}
        [{ role := "user", content := "a" }, { role := "user", content := "b" }]
        { flagged := true, categoryScores := [("hate", 2)] }
        fun _ => {}).moderationCalls = 0 ∧
    (request { moderation := true, moderationThreshold := 1 } {}
        [{ role := "user", content := "a" }, { role := "user", content := "b" }]
        { flagged := true, categoryScores := [("hate", 2)] }
        fun _ => {}).history.isSome = true :=
  request_multi_message_skips_moderation { moderation := true, moderationThreshold := 1 } {}
    [{ role := "user", content := "a" }, { role := "user", content := "b" }]
    { flagged := true, categoryScores := [("hate", 2)] } (fun _ => {}) (by norm_num)

/-- C5: both floors reject inclusively.  For an attempt whose transport
call settled in time and whose JSON check passed: when `minTokens` is
set to a nonzero `m`, a reported token count less than or equal to `m`
fails the attempt, while a count of exactly `m + 1` (with the latency
floor satisfied) is accepted; and when `minResponseTime` is set to a
nonzero `t`, an elapsed time less than or equal to `t` fails the
attempt. -/
theorem attemptError_floors_inclusive (opts : Options) (a : AttemptOutcome)
    (h1 : a.rejects = none) (h2 : a.timesOut = false)
    (h3 : ¬(opts.imageModel = none ∧ opts.validateJson = true ∧ a.jsonValid = false)) :
    (∀ m : Int, opts.minTokens = some m → 0 < m →
      ((getToken a.completionTokens ≤ m → (attemptError opts a).isSome = true) ∧
       (getToken a.completionTokens = m + 1 →
         floorViolated opts.minResponseTime a.elapsedMs = false →
         attemptError opts a = none))) ∧
    (∀ t : Int, opts.minResponseTime = some t → 0 < t →
      a.elapsedMs ≤ t → (attemptError opts a).isSome = true) := by
  simp only [attemptError, h1, h2, if_neg h3, Bool.false_eq_true, if_false]
  constructor
  · intro m hm h0
    constructor
    · intro htok
      by_cases hrt : floorViolated opts.minResponseTime a.elapsedMs = true
      · simp [hrt]
      · have : floorViolated opts.minTokens (getToken a.completionTokens) = true := by
          simp [floorViolated, jsTruthy, hm, htok]
          omega
        simp [Bool.not_eq_true] at hrt
        simp [hrt, this]
    · intro htok hrt
      have : floorViolated opts.minTokens (getToken a.completionTokens) = false := by
        simp [floorViolated, jsTruthy, hm, htok]
      simp [hrt, this]
  · intro t ht h0 helapsed
    have : floorViolated opts.minResponseTime a.elapsedMs = true := by
      simp [floorViolated, jsTruthy, ht, helapsed]
      omega
    simp [this]

/-- Witness for C5: floors `minTokens = 10`, `minResponseTime = 5`; a
response of exactly 10 tokens is rejected. -/
theorem attemptError_floors_inclusive_witness :
    (attemptError { minTokens := some 10, minResponseTime := some 5 }
        { elapsedMs := 6, completionTokens := some 10 }).isSome = true :=
  ((attemptError_floors_inclusive { minTokens := some 10, minResponseTime := some 5 }
      { elapsedMs := 6, completionTokens := some 10 } rfl rfl (by decide)).1
    10 rfl (by norm_num)).1 (by decide)

/-- C10: a floor of exactly `0` disables its check.  Because the guards
test the truthiness of the floor value, setting `minTokens = 0` or
`minResponseTime = 0` makes the attempt validation behave exactly as if
the floor were unset, for every attempt outcome — the zero floor can
never reject a response. -/
theorem attemptError_zero_floor_disabled (opts : Options) (a : AttemptOutcome) :
    attemptError { opts with minTokens := some 0 } a =
      attemptError { opts with minTokens := none } a ∧
    attemptError { opts with minResponseTime := some 0 } a =
      attemptError { opts with minResponseTime := none } a := by
  cases h : a.rejects <;>
    simp [attemptError, h, floorViolated, jsTruthy]

/-- The number of running tasks never exceeds the concurrency limit:
`start` is guarded by `running.length < c` and `finish` only removes. -/
theorem queueReachable_running_le {R : Type} (c : Nat) (f : Nat → R) (n : Nat)
    (s : QueueState R) (h : QueueReachable c f n s) : s.running.length ≤ c := by
  induction h with
  | refl => simp
  | tail hab hbc ih =>
    cases hbc with
    | start i rest hp hc => simp only [List.length_append, List.length_singleton]; omega
    | finish i hi => exact le_trans (List.Sublist.length_le (List.erase_sublist _ _)) ih

/-- Conservation invariant of the dispatcher queue: the pending,
running and finished task indices together are a permutation of the
submitted indices, and every finished task is paired with its own
result. -/
theorem queueReachable_inv {R : Type} (c : Nat) (f : Nat → R) (n : Nat)
    (s : QueueState R) (h : QueueReachable c f n s) :
    (s.pending ++ s.running ++ s.done.map Prod.fst).Perm (List.range n) ∧
    ∀ p ∈ s.done, p.2 = f p.1 := by
  induction h with
  | refl => simp
  | @tail b s2 hab hbc ih =>
    obtain ⟨hperm, hres⟩ := ih
    simp only [List.append_assoc] at hperm
    cases hbc with
    | start i rest hp hc =>
      refine ⟨?_, hres⟩
      rw [hp] at hperm
      simp only [List.cons_append] at hperm
      simp only [List.append_assoc, List.singleton_append]
      exact ((List.Perm.append_left rest List.perm_middle).trans List.perm_middle).trans hperm
    | finish i hi =>
      have hrun : b.running.Perm (i :: b.running.erase i) := List.perm_cons_erase hi
      constructor
      · simp only [List.map_append, List.map_cons, List.map_nil, List.append_assoc]
        refine (List.Perm.append_left b.pending ?_).trans hperm
        exact ((List.Perm.append_left _ (List.perm_append_singleton i _)).trans
          List.perm_middle).trans (hrun.symm.append_right _)
      · intro p hp
        rcases List.mem_append.mp hp with h1 | h1
        · exact hres p h1
        · rw [List.mem_singleton.mp h1]

/-- In a terminal queue state every submitted item is finished exactly
once, with its own result. -/
theorem queueTerminal_done {R : Type} (c : Nat) (f : Nat → R) (n : Nat)
    (s : QueueState R) (h : QueueReachable c f n s)
    (hp : s.pending = []) (hr : s.running = []) :
    s.done.length = n ∧ (s.done.map Prod.fst).Nodup ∧
    ∀ i, i < n → (i, f i) ∈ s.done := by
  obtain ⟨hperm, hres⟩ := queueReachable_inv c f n s h
  rw [hp, hr] at hperm
  simp only [List.nil_append] at hperm
  refine ⟨?_, ?_, ?_⟩
  · have := hperm.length_eq
    simpa using this
  · exact hperm.nodup_iff.mpr (List.nodup_range n)
  · intro i hi
    have hmem : i ∈ s.done.map Prod.fst := hperm.mem_iff.mpr (List.mem_range.mpr hi)
    obtain ⟨p, hpd, hfst⟩ := List.mem_map.mp hmem
    have hsnd := hres p hpd
    have : p = (i, f i) := Prod.ext hfst (by rw [hsnd, hfst])
    rwa [← this]

/-- C7: the dispatcher of `parallel` with concurrency limit `c ≥ 1`
never has more than `c` items' orchestrations — hence more than `c`
remote calls, since attempts within one orchestration are sequential —
in flight at once, in every reachable schedule. -/
theorem parallel_concurrency_bound (cfg : Config) (batch : Options)
    (items : List ParallelMessage) (mrs : Nat → ModerationApiResult)
    (trs : Nat → Nat → AttemptOutcome) (c : Nat) (s : QueueState RequestResult)
    (hc : 1 ≤ c)
    (h : QueueReachable c (parallelItemResult cfg batch items mrs trs) items.length s) :
    s.running.length ≤ c :=
  queueReachable_running_le c (parallelItemResult cfg batch items mrs trs) items.length s h

/-- Witness for C7: two items, concurrency `1`, the state reached after
admitting item `0`. -/
theorem parallel_concurrency_bound_witness :
    (QueueState.mk [1] [0] ([] : List (Nat × RequestResult))).running.length ≤ 1 :=
  parallel_concurrency_bound {} {} [.str "a", .str "b"] (fun _ => ⟨false, []⟩)
    (fun _ _ => {}) 1 (QueueState.mk [1] [0] [])
    (by norm_num)
    (Relation.ReflTransGen.tail Relation.ReflTransGen.refl
      (QueueStep.start { pending := List.range 2, running := [], done := [] } 0 [1] rfl
        (by decide)))

/-- C6: in every terminal schedule of a `parallel` batch, the collected
results contain exactly one entry per input item, and the entry for
position `i` is the orchestration result of input item `i` — submission
order is preserved no matter in which order the items completed. -/
theorem parallel_preserves_submission_order (cfg : Config) (batch : Options)
    (items : List ParallelMessage) (mrs : Nat → ModerationApiResult)
    (trs : Nat → Nat → AttemptOutcome) (c : Nat) (s : QueueState RequestResult)
    (h : QueueReachable c (parallelItemResult cfg batch items mrs trs) items.length s)
    (hp : s.pending = []) (hr : s.running = []) :
    s.done.length = items.length ∧ (s.done.map Prod.fst).Nodup ∧
    ∀ i, i < items.length → (i, parallelItemResult cfg batch items mrs trs i) ∈ s.done :=
  queueTerminal_done c (parallelItemResult cfg batch items mrs trs) items.length s h hp hr

/-- Witness for C6: a one-item batch run to completion. -/
theorem parallel_preserves_submission_order_witness :
    (QueueState.mk [] []
        [(0, parallelItemResult {} {} [.str "a"] (fun _ => ⟨false, []⟩) (fun _ _ => {}) 0)]
      ).done.length = 1 ∧
    ((QueueState.mk [] []
        [(0, parallelItemResult {} {} [.str "a"] (fun _ => ⟨false, []⟩) (fun _ _ => {}) 0)]
      ).done.map Prod.fst).Nodup ∧
    ∀ i, i < 1 →
      (i, parallelItemResult {} {} [.str "a"] (fun _ => ⟨false, []⟩) (fun _ _ => {}) i) ∈
        (QueueState.mk [] []
          [(0, parallelItemResult {} {} [.str "a"] (fun _ => ⟨false, []⟩) (fun _ _ => {}) 0)]
        ).done := by
  exact
    parallel_preserves_submission_order {} {} [.str "a"] (fun _ => ⟨false, []⟩)
      (fun _ _ => {}) 1
      (QueueState.mk [] []
        [(0, parallelItemResult {} {} [.str "a"] (fun _ => ⟨false, []⟩) (fun _ _ => {}) 0)])
      (Relation.ReflTransGen.tail
        (Relation.ReflTransGen.tail Relation.ReflTransGen.refl
          (QueueStep.start { pending := List.range 1, running := [], done := [] } 0 [] rfl
            (by decide)))
        (QueueStep.finish { pending := [], running := [0], done := [] } 0 (by decide)))
      rfl rfl

/-- C8: evaluation at the failing input.  An item submitted in object
form with its own `requestOptions` (`retryCount = 5`) inside a batch
whose batch-level options set `retryCount = 1` is nevertheless run with
the batch-level options: the guard `options.length > 0` reads the
`length` property of a plain object, which is `undefined`, and
`undefined > 0` is `false`, so the per-item overrides are always
discarded. -/
theorem parallel_item_overrides_discarded :
    itemEffectiveOptions { retryCount := 1 }
        (.obj "hi" { retryCount := 5 }) = ({ retryCount := 1 } : Options) ∧
    (itemEffectiveOptions { retryCount := 1 }
        (.obj "hi" { retryCount := 5 })).retryCount ≠ 5 := by
  exact ⟨rfl, by decide⟩

end BatchGpt
